import Mathlib

/-!
Shallow embedding of the ECC-Rust-Project core.

The Rust source represents field elements and coordinates as `BigUint`
(arbitrary-precision nonnegative integers), embedded here as `Nat`.
Operations that can panic (a failed `assert!`, or an arithmetic underflow
on a loop bound) are embedded as `Option`-valued functions returning
`none` at the panic.
-/

namespace ECC

namespace FiniteField

/-- Translation of `FiniteField::add` (src/elliptic_curve/finite_field.rs):
`(a + b).modpow(1, p)`, i.e. the sum reduced mod `p`. -/
def add (p a b : Nat) : Nat := (a + b) % p

/-- Translation of `FiniteField::mul`: `(a * b).modpow(1, p)`. -/
def mul (p a b : Nat) : Nat := (a * b) % p

/-- Translation of `FiniteField::inv_add`: asserts `n < p` (panic modelled
as `none`) and returns `p - n` with no further reduction. -/
def inv_add (p n : Nat) : Option Nat :=
  if n < p then some (p - n) else none

/-- Translation of `FiniteField::sub`: `add(a, inv_add(b))`. -/
def sub (p a b : Nat) : Option Nat :=
  (inv_add p b).map (fun nb => add p a nb)

/-- Translation of `FiniteField::inv_mul`: `n.modpow(p - 2, p)`. The Rust
`BigUint` subtraction `p - 2` panics for `p < 2`; all uses below have
`p ≥ 2`, where `Nat` truncated subtraction agrees. There is no guard for
`n = 0` in the source. -/
def inv_mul (p n : Nat) : Nat := n ^ (p - 2) % p

/-- Translation of `FiniteField::div`: `mul(a, inv_mul(b))`. -/
def div (p a b : Nat) : Nat := mul p a (inv_mul p b)

end FiniteField

/-- Translation of the `Point` enum: `Coordinates(x, y)` or `Identity`.
Rust `PartialEq` compares coordinates numerically, which coincides with
structural equality on `Nat` coordinates. -/
inductive Point where
  | Coordinates (x y : Nat)
  | Identity
deriving DecidableEq

/-- Translation of the `EllipticCurve` struct: parameters `a`, `b`, `p`
of the curve `y^2 = x^3 + a*x + b (mod p)`. -/
structure EllipticCurve where
  a : Nat
  b : Nat
  p : Nat

namespace EllipticCurve

/-- Translation of `EllipticCurve::is_on_curve`:
`y.modpow(2, p) == (x.modpow(3, p) + a*x + b).modpow(1, p)`. -/
def is_on_curve (ec : EllipticCurve) (c : Point) : Bool :=
  match c with
  | .Coordinates x y => y ^ 2 % ec.p == (x ^ 3 % ec.p + ec.a * x + ec.b) % ec.p
  | .Identity => true

/-- Translation of `EllipticCurve::calculate_x3_y3` (the shared chord/tangent
formula): `x3 = sub(sub(lambda^2, x1), x2)`, `y3 = sub(mul(lambda, sub(x1, x3)), y1)`.
Each `sub` can panic via `inv_add`; panics propagate as `none`. -/
def calculate_x3_y3 (ec : EllipticCurve) (lambda x1 x2 y1 : Nat) :
    Option (Nat × Nat) := do
  let lambda_sq := FiniteField.mul ec.p lambda lambda
  let t1 ← FiniteField.sub ec.p lambda_sq x1
  let x3 ← FiniteField.sub ec.p t1 x2
  let t2 ← FiniteField.sub ec.p x1 x3
  let y3 ← FiniteField.sub ec.p (FiniteField.mul ec.p lambda t2) y1
  some (x3, y3)

/-- Translation of `EllipticCurve::add` (src/elliptic_curve/elliptic_curve.rs).
The two `assert!(is_on_curve ..)` and the `assert_ne!(r, q)` run before the
match; a failed assertion is modelled as `none`. Note the
`(Identity, Identity)` match arm is dead code: `r = q` trips `assert_ne!`
first. -/
def add (ec : EllipticCurve) (r q : Point) : Option Point :=
  if ec.is_on_curve r then
    if ec.is_on_curve q then
      if r = q then none
      else
        match r, q with
        | .Identity, .Coordinates x y => some (.Coordinates x y)
        | .Coordinates x y, .Identity => some (.Coordinates x y)
        | .Coordinates x1 y1, .Coordinates x2 y2 =>
          let y_sum := FiniteField.add ec.p y1 y2
          if x1 = x2 ∧ y_sum = 0 then some .Identity
          else do
            let d_y ← FiniteField.sub ec.p y2 y1
            let d_x ← FiniteField.sub ec.p x2 x1
            let lambda := FiniteField.div ec.p d_y d_x
            let r3 ← ec.calculate_x3_y3 lambda x1 x2 y1
            some (.Coordinates r3.1 r3.2)
        | .Identity, .Identity => some .Identity
    else none
  else none

/-- Translation of `EllipticCurve::double` (src/elliptic_curve/elliptic_curve.rs):
guards `y = 0` to `Identity`, otherwise `lambda = (3*x^2 + a) / (2*y)` and the
shared chord/tangent formula with `x1 = x2 = x`. -/
def double (ec : EllipticCurve) (c : Point) : Option Point :=
  if ec.is_on_curve c then
    match c with
    | .Identity => some .Identity
    | .Coordinates x y =>
      if y = 0 then some .Identity
      else
        let x_sq := FiniteField.mul ec.p x x
        let numerator := FiniteField.add ec.p (FiniteField.mul ec.p x_sq 3) ec.a
        let denominator := FiniteField.mul ec.p 2 y
        let lambda := FiniteField.div ec.p numerator denominator
        (ec.calculate_x3_y3 lambda x x y).map (fun r3 => .Coordinates r3.1 r3.2)
  else none

end EllipticCurve

/-- Fuel-driven helper for `BigUint::bits`: number of binary digits.
Structural recursion on the fuel so the kernel can evaluate it. -/
def bitsAux : Nat → Nat → Nat
  | 0, _ => 0
  | fuel + 1, n => if n = 0 then 0 else bitsAux fuel (n / 2) + 1

/-- Translation of `BigUint::bits()`: the bit length of `n`
(`bits 0 = 0`, `bits 19 = 5`). The fuel `n` dominates the bit length. -/
def bits (n : Nat) : Nat := bitsAux n n

namespace EllipticCurve

/-- Translation of `EllipticCurve::scalar_mul`: left-to-right double-and-add
over bit indices `(0 .. d.bits() - 1).rev()`, starting from `t = c`.
For `d = 0`, `d.bits() = 0` and the Rust `u64` loop bound `0 - 1`
underflows (a panic in debug builds), modelled as `none`. -/
def scalar_mul (ec : EllipticCurve) (c : Point) (d : Nat) : Option Point :=
  if ec.is_on_curve c then
    if d = 0 then none
    else
      (List.range (bits d - 1)).reverse.foldl
        (fun acc i => do
          let t ← acc
          let t2 ← ec.double t
          if d.testBit i then ec.add t2 c else some t2)
        (some c)
  else none

end EllipticCurve

namespace CrateRoot

/-- Translation of the crate-root `EllipticCurve::double` (src/lib.rs):
unlike the module version it has no `y = 0` guard, computes
`x2 = sub(lambda^2, mul(2, x))` and `y2 = sub(mul(sub(x, x2), lambda), y)`
inline instead of calling `calculate_x3_y3`. -/
def double (ec : EllipticCurve) (c : Point) : Option Point :=
  if ec.is_on_curve c then
    match c with
    | .Identity => some .Identity
    | .Coordinates x y => do
      let x_sq := FiniteField.mul ec.p x x
      let numerator := FiniteField.add ec.p (FiniteField.mul ec.p x_sq 3) ec.a
      let denominator := FiniteField.mul ec.p 2 y
      let lambda := FiniteField.div ec.p numerator denominator
      let lambda_sq := FiniteField.mul ec.p lambda lambda
      let x2 ← FiniteField.sub ec.p lambda_sq (FiniteField.mul ec.p 2 x)
      let t ← FiniteField.sub ec.p x x2
      let y2 ← FiniteField.sub ec.p (FiniteField.mul ec.p t lambda) y
      some (.Coordinates x2 y2)
  else none

end CrateRoot

/-- The toy curve of the source's tests: `a = 2`, `b = 2`, `p = 17`,
with generator `(5, 1)` of order `19`. -/
def toyEC : EllipticCurve := ⟨2, 2, 17⟩

/-- A curve `y^2 = x^3 + x (mod 17)` carrying the 2-torsion point `(0, 0)`,
used to separate the two `double` implementations. -/
def torsionEC : EllipticCurve := ⟨1, 0, 17⟩

end ECC

namespace ECC

/-! Claim theorems. -/

/-- Claim C1 (code_bug evidence): `inv_mul` has no zero guard; with the prime
modulus `p = 17`, `inv_mul(0) = 0^15 mod 17 = 0` is returned silently, and
`div(5, 0) = mul(5, 0) = 0`, instead of a `NonInvertible` failure. -/
theorem inv_mul_zero_silently_returns_zero :
    FiniteField.inv_mul 17 0 = 0 ∧ FiniteField.div 17 5 0 = 0 := by
  decide

/-- Claim C3 (code_bug evidence): on the toy curve with on-curve point
`(5, 1)`, `scalar_mul((5, 1), 0)` does not return `Infinity`: the loop bound
`bits(0) - 1` underflows `u64` (a panic, modelled as `none`). -/
theorem scalar_mul_zero_fails :
    toyEC.scalar_mul (.Coordinates 5 1) 0 = none := by
  decide

/-- Claim C4 counterexample: on the toy curve, `add(Infinity, Infinity)` does
not return `Infinity`: the `assert_ne!(r, q)` panics first. -/
theorem add_inf_inf_not_inf :
    ¬ (toyEC.add .Identity .Identity = some .Identity) := by
  decide

/-- Claim C4 (amended): for every curve, `add(Infinity, Infinity)` hits the
`SameOperand` assertion and fails; the `(Identity, Identity)` match arm
returning `Infinity` is unreachable. -/
theorem add_inf_inf_fails (ec : EllipticCurve) :
    ec.add .Identity .Identity = none := by
  simp [EllipticCurve.add, EllipticCurve.is_on_curve]

/-- Claim C5: for every on-curve point `P`, `add(P, P)` trips the
`assert_ne!(r, q)` (`SameOperand`) and never returns a point. -/
theorem add_same_operand_fails (ec : EllipticCurve) (P : Point)
    (h : ec.is_on_curve P = true) :
    ec.add P P = none := by
  simp [EllipticCurve.add, h]

/-- Witness for C5 at the toy curve and the on-curve point `(5, 1)`. -/
theorem add_same_operand_fails_witness :
    toyEC.add (.Coordinates 5 1) (.Coordinates 5 1) = none :=
  add_same_operand_fails toyEC (.Coordinates 5 1) (by decide)

/-- Claim C7: on the toy curve `a = 2, b = 2, p = 17`, the generator
`G = (5, 1)` has order `19` and `scalar_mul((5, 1), 19) = Infinity`. -/
theorem scalar_mul_order_is_infinity :
    toyEC.scalar_mul (.Coordinates 5 1) 19 = some .Identity := by
  decide

end ECC

namespace ECC

/-- Claim C2 counterexample: with `p = 17` and `n = 0`, `inv_add` returns
`17` — not `(17 - 0) mod 17 = 0` — so the result is neither `< p` nor `0`. -/
theorem inv_add_zero_not_reduced :
    FiniteField.inv_add 17 0 = some 17 ∧ (17 : Nat) ≠ (17 - 0) % 17 := by
  decide

/-- Claim C2 (amended): for `0 < n < p`, `inv_add` returns `p - n`, which
equals `(p - n) mod p`, lies in `(0, p)`, and is never `0`; at `n = 0` the
code instead returns `p` unreduced. -/
theorem inv_add_spec (p n : Nat) (h0 : 0 < n) (h1 : n < p) :
    FiniteField.inv_add p n = some (p - n) ∧ (p - n) % p = p - n ∧
      0 < p - n ∧ p - n < p ∧ FiniteField.inv_add p 0 = some p := by
  have hp : 0 < p := Nat.lt_of_le_of_lt (Nat.zero_le n) h1
  refine ⟨?_, ?_, ?_, ?_, ?_⟩
  · simp [FiniteField.inv_add, h1]
  · exact Nat.mod_eq_of_lt (by omega)
  · omega
  · omega
  · simp [FiniteField.inv_add, hp]

/-- Witness for C2 (amended) at `p = 17`, `n = 5`. -/
theorem inv_add_spec_witness :
    FiniteField.inv_add 17 5 = some (17 - 5) ∧ (17 - 5) % 17 = 17 - 5 ∧
      0 < 17 - 5 ∧ 17 - 5 < 17 ∧ FiniteField.inv_add 17 0 = some 17 :=
  inv_add_spec 17 5 (by decide) (by decide)

/-- Claim C6: two distinct on-curve affine points with equal `x` and
`(y1 + y2) ≡ 0 (mod p)` add to `Infinity` (the vertical-chord case). -/
theorem add_vertical_chord (ec : EllipticCurve) (x1 y1 x2 y2 : Nat)
    (h1 : ec.is_on_curve (.Coordinates x1 y1) = true)
    (h2 : ec.is_on_curve (.Coordinates x2 y2) = true)
    (hne : Point.Coordinates x1 y1 ≠ Point.Coordinates x2 y2)
    (hx : x1 = x2) (hy : (y1 + y2) % ec.p = 0) :
    ec.add (.Coordinates x1 y1) (.Coordinates x2 y2) = some .Identity := by
  simp only [EllipticCurve.add, h1, h2, if_true, if_neg hne]
  simp [FiniteField.add, hx, hy]

/-- Witness for C6 on the toy curve with `(6, 3)` and `(6, 14)`:
`3 + 14 = 17 ≡ 0 (mod 17)`. -/
theorem add_vertical_chord_witness :
    toyEC.add (.Coordinates 6 3) (.Coordinates 6 14) = some .Identity :=
  add_vertical_chord toyEC 6 3 6 14 (by decide) (by decide) (by decide)
    (by decide) (by decide)

/-- Claim C8: for every `a < p`, `add(a, inv_add(a)) = 0`
(the additive-inverse contract, with the panic-free case made explicit). -/
theorem add_inv_add_eq_zero (p a : Nat) (h : a < p) :
    (FiniteField.inv_add p a).map (fun na => FiniteField.add p a na) =
      some 0 := by
  have hle : a ≤ p := Nat.le_of_lt h
  simp [FiniteField.inv_add, if_pos h, FiniteField.add,
    Nat.add_sub_cancel' hle, Nat.mod_self]

/-- Witness for C8 at `p = 17`, `a = 5`. -/
theorem add_inv_add_eq_zero_witness :
    (FiniteField.inv_add 17 5).map (fun na => FiniteField.add 17 5 na) =
      some 0 :=
  add_inv_add_eq_zero 17 5 (by decide)

end ECC

namespace ECC

/-- Claim C9: for `a, b < p`, `sub(a, b)` equals the mathematical integer
difference `a - b` reduced into `[0, p)`, and it is computed as
`add(a, inv_add(b))`. -/
theorem sub_spec (p a b : Nat) (ha : a < p) (hb : b < p) :
    FiniteField.sub p a b = some ((((a : ℤ) - (b : ℤ)) % (p : ℤ)).toNat) ∧
      FiniteField.sub p a b =
        (FiniteField.inv_add p b).map (fun nb => FiniteField.add p a nb) := by
  refine ⟨?_, rfl⟩
  have hb' : b ≤ p := Nat.le_of_lt hb
  have key : ((a : ℤ) - b) % p = (((a + (p - b)) % p : Nat) : ℤ) := by
    push_cast [Nat.cast_sub hb']
    rw [show (a : ℤ) + ((p : ℤ) - b) = (a : ℤ) - b + (p : ℤ) * 1 by ring,
      Int.add_mul_emod_self_left]
  have key2 : (((a : ℤ) - b) % p).toNat = (a + (p - b)) % p := by
    rw [key, Int.toNat_natCast]
  simp [FiniteField.sub, FiniteField.inv_add, hb, FiniteField.add, key2]

/-- Witness for C9 at `p = 11`, `a = 4`, `b = 10`: the result is
`(4 - 10) mod 11 = 5`. -/
theorem sub_spec_witness :
    FiniteField.sub 11 4 10 =
        some ((((4 : ℤ) - (10 : ℤ)) % (11 : ℤ)).toNat) ∧
      FiniteField.sub 11 4 10 =
        (FiniteField.inv_add 11 10).map (fun nb => FiniteField.add 11 4 nb) :=
  sub_spec 11 4 10 (by decide) (by decide)

end ECC

namespace ECC

/-- Helper: `sub(a, b)` succeeds and returns `(a + (p - b)) mod p` whenever
`b < p`. -/
lemma sub_eq (p a b : Nat) (hb : b < p) :
    FiniteField.sub p a b = some ((a + (p - b)) % p) := by
  simp [FiniteField.sub, FiniteField.inv_add, hb, FiniteField.add]

/-- Helper: subtracting `x` twice mod `p` agrees with subtracting
`2*x mod p` once. -/
lemma sub_twice_eq_sub_double (p L x : Nat) (hx : x < p) :
    ((L + (p - x)) % p + (p - x)) % p = (L + (p - 2 * x % p)) % p := by
  have hp : 0 < p := by omega
  rw [Nat.mod_add_mod]
  rcases Nat.lt_or_ge (2 * x) p with h | h
  · rw [Nat.mod_eq_of_lt h]
    rw [show L + (p - x) + (p - x) = L + (p - 2 * x) + p by omega,
      Nat.add_mod_right]
  · have h2 : 2 * x % p = 2 * x - p := by
      rw [Nat.mod_eq_sub_mod h, Nat.mod_eq_of_lt (by omega)]
    rw [h2]
    congr 1
    omega

/-- Claim C10 counterexample: on the curve `y^2 = x^3 + x (mod 17)` the two
`double` implementations disagree at the on-curve 2-torsion point `(0, 0)`
(module: `Infinity`; crate root: `(0, 0)`), and also at the on-curve point
`(20, 8)` whose `x`-coordinate exceeds `p` (module: assertion failure;
crate root: an affine point). -/
theorem crate_root_double_differs_from_module :
    (torsionEC.is_on_curve (.Coordinates 0 0) = true ∧
      CrateRoot.double torsionEC (.Coordinates 0 0) ≠
        EllipticCurve.double torsionEC (.Coordinates 0 0)) ∧
    (torsionEC.is_on_curve (.Coordinates 20 8) = true ∧
      CrateRoot.double torsionEC (.Coordinates 20 8) ≠
        EllipticCurve.double torsionEC (.Coordinates 20 8)) := by
  decide

/-- Claim C10 (amended): the two `double` implementations agree on
`Infinity` and on every affine input whose coordinates satisfy the
data-model range `x, y < p` with `y ≠ 0` (whether on the curve or not);
the disagreement is confined to `y = 0` and out-of-range coordinates. -/
theorem double_implementations_agree (ec : EllipticCurve) (x y : Nat)
    (hx : x < ec.p) (hy : y < ec.p) (hy0 : y ≠ 0) :
    CrateRoot.double ec (.Coordinates x y) =
      ec.double (.Coordinates x y) ∧
    CrateRoot.double ec .Identity = EllipticCurve.double ec .Identity := by
  have hp : 0 < ec.p := by omega
  constructor
  · by_cases h : ec.is_on_curve (.Coordinates x y)
    · simp only [CrateRoot.double, EllipticCurve.double, h, if_true,
        hy0, if_false, EllipticCurve.calculate_x3_y3, FiniteField.mul,
        sub_eq _ _ _ hx, sub_eq _ _ _ hy, sub_eq _ _ _ (Nat.mod_lt _ hp),
        Option.some_bind, Option.bind_eq_bind, Option.map_some']
      generalize ECC.FiniteField.div ec.p
        (ECC.FiniteField.add ec.p (x * x % ec.p * 3 % ec.p) ec.a)
        (2 * y % ec.p) = l
      rw [sub_twice_eq_sub_double ec.p (l * l % ec.p) x hx]
      rw [Nat.mul_comm l
        ((x + (ec.p - (l * l % ec.p + (ec.p - 2 * x % ec.p)) % ec.p)) % ec.p)]
    · simp [CrateRoot.double, EllipticCurve.double, h]
  · simp [CrateRoot.double, EllipticCurve.double, EllipticCurve.is_on_curve]

/-- Witness for C10 (amended) on the toy curve at `(5, 1)`. -/
theorem double_implementations_agree_witness :
    CrateRoot.double toyEC (.Coordinates 5 1) =
      toyEC.double (.Coordinates 5 1) ∧
    CrateRoot.double toyEC .Identity = EllipticCurve.double toyEC .Identity :=
  double_implementations_agree toyEC 5 1 (by decide) (by decide) (by decide)

end ECC
